import Mathlib

/-!
Shallow embedding of the query-classification and rate-limiting core of the
`backend_kuprikqurilish_AI_Assistant` repository.

Sources embedded here:
* `src/services/aiService.js` — `matchFAQ`, `keywordMatch`, `aiMatch`,
  `detectNavigation` (the classification cascade);
* `middleware/rateLimiter.js` — `rateLimiter`, `getRateLimitStatus`, the
  hourly cleanup sweep and the `saveRateLimits` persistence calls.

JavaScript strings are modelled as `List Char`.  `String.prototype.includes`
is substring containment, `toLowerCase` is per-character lowercasing
(ASCII — all data in the repository's matching rules is Latin-script),
`trim` removes leading/trailing whitespace, and `split(/\s+/)` splits on
maximal whitespace runs (with the JS boundary behaviour: a leading or
trailing run contributes an empty token, and the empty string splits to
one empty token).  Timestamps (`Date.now()` epoch milliseconds) are `Nat`.
JS `a - b > w` on timestamps is modelled by `w < a - b` on `Nat`; truncated
subtraction agrees with the JS comparison because a negative JS difference
is never `> w`, just as `Nat` truncation to `0` is not.
-/

abbrev Str : Type := List Char

/-- Per-character lowercasing, modelling `String.prototype.toLowerCase`
on the ASCII range used by the repository's keyword data. -/
def toLowerStr (s : Str) : Str := s.map Char.toLower

/-- `String.prototype.trim`: strip leading and trailing whitespace. -/
def trimStr (s : Str) : Str :=
  ((s.dropWhile Char.isWhitespace).reverse.dropWhile Char.isWhitespace).reverse

/-- `startsWithB s pre` : `pre` occurs at the start of `s`. -/
def startsWithB : Str → Str → Bool
  | _, [] => true
  | [], _ :: _ => false
  | a :: as, b :: bs => decide (a = b) && startsWithB as bs

/-- `containsSub s sub` models JS `s.includes(sub)`: `sub` occurs as a
contiguous substring of `s`. -/
def containsSub : Str → Str → Bool
  | [], sub => startsWithB [] sub
  | a :: as, sub => startsWithB (a :: as) sub || containsSub as sub

/-- True when the list starts with a whitespace character. -/
def wsStart : Str → Bool
  | [] => false
  | c :: _ => c.isWhitespace

/-- JS `str.split(/\s+/)`: split on maximal whitespace runs.  A leading or
trailing run yields an empty token at that end, and `""` splits to `[""]`,
exactly as in JS.  (The empty tokens are always discarded afterwards by the
`length > 2` filter on query words; keyword strings in the data sets carry
single internal spaces, where this agrees with any split.) -/
def splitWS : Str → List Str
  | [] => [[]]
  | c :: cs =>
    if c.isWhitespace then
      if wsStart cs then splitWS cs else [] :: splitWS cs
    else
      match splitWS cs with
      | t :: ts => (c :: t) :: ts
      | [] => [[c]]

/-- The stop-word list of `matchFAQ` (`aiService.js` lines 28–39). -/
def faqStopWords : List Str :=
  [("uchun").data, ("bilan").data, ("dan").data, ("ga").data, ("ni").data,
   ("ning").data, ("lar").data, ("chi").data, ("nima").data, ("qanday").data]

/-- The stop-word list of `keywordMatch` (`aiService.js` line 115). -/
def navStopWords : List Str :=
  [("uchun").data, ("bilan").data, ("dan").data, ("ga").data, ("ni").data,
   ("ning").data, ("lar").data, ("chi").data]

/-- Content words of the (lowercased, trimmed) query in `matchFAQ`:
whitespace-split tokens of length > 2 that are not FAQ stop words. -/
def faqQueryWords (q : Str) : List Str :=
  (splitWS q).filter (fun w => decide (2 < w.length) && !(faqStopWords.contains w))

/-- Content words of the query in `keywordMatch` (shorter stop-word list). -/
def navQueryWords (q : Str) : List Str :=
  (splitWS q).filter (fun w => decide (2 < w.length) && !(navStopWords.contains w))

/-- The words of a lowercased keyword (`keywordLower.split(/\s+/)`). -/
def kwWords (kw : Str) : List Str := splitWS (toLowerStr kw)

/-- Condition of the `EXACT PHRASE MATCH` branch:
`q.includes(keywordLower) || keywordLower.includes(q)`. -/
def substrCond (q kw : Str) : Bool :=
  containsSub q (toLowerStr kw) || containsSub (toLowerStr kw) q

/-- Condition of the `MULTI-WORD MATCH` branch: every word of the keyword
fuzzy-matches (substring either direction) some content word of the query,
and the keyword has more than one word.  (The query string itself is not
consulted by this branch in the source; the parameter is kept for a
uniform signature.) -/
def multiCond (_q : Str) (qws : List Str) (kw : Str) : Bool :=
  (kwWords kw).all (fun k => qws.any (fun w => containsSub w k || containsSub k w)) &&
    decide (1 < (kwWords kw).length)

/-- Condition of the `SINGLE WORD MATCH` branch: the keyword is a single
word that fuzzy-matches some content word of the query. -/
def singleCond (qws : List Str) (kw : Str) : Bool :=
  (kwWords kw).length == 1 &&
    qws.any (fun w =>
      containsSub w ((kwWords kw).headD []) || containsSub ((kwWords kw).headD []) w)

/-- Contribution of one keyword to an item's score — the body of the inner
`for (const keyword of ...)` loop shared verbatim by `matchFAQ`
(lines 51–86) and `keywordMatch` (lines 127–155): exact match +100, else
substring containment +50, else multi-word fuzzy +30 × word count, else
single-word fuzzy +10, else 0.  `q` is the lowercased trimmed query and
`qws` its content words. -/
def keywordScore (q : Str) (qws : List Str) (kw : Str) : Nat :=
  if q = toLowerStr kw then 100
  else if substrCond q kw then 50
  else if multiCond q qws kw then 30 * (kwWords kw).length
  else if singleCond qws kw then 10
  else 0

/-- Total score of one item: the source accumulates `score +=` across the
item's keywords, i.e. the sum of the per-keyword contributions. -/
def itemScore (q : Str) (qws : List Str) (kws : List Str) : Nat :=
  (kws.map (keywordScore q qws)).sum

/-- `matchedKeywords` of one item: the source pushes the (raw) keyword in
each of the four scoring branches, i.e. exactly the keywords whose
contribution is nonzero. -/
def matchedKws (q : Str) (qws : List Str) (kws : List Str) : List Str :=
  kws.filter (fun k => decide (keywordScore q qws k ≠ 0))

/-- A FAQ entry of `faq.json` (the data file is an external read-only input;
fields per the `{...faq}` spread: id, question, answer, category, keywords). -/
structure FAQEntry where
  id : Nat
  question : Str
  answer : Str
  category : Str
  keywords : List Str
deriving DecidableEq

/-- A navigation entry of `siteMap.json`: url, intent, keywords. -/
structure NavItem where
  url : Str
  intent : Str
  keywords : List Str
deriving DecidableEq

/-- The object built by `matchFAQ` on success
(`{...faq, matched: true, score, matchedKeywords}`). -/
structure FAQMatch where
  faq : FAQEntry
  score : Nat
  matchedKeywords : List Str
deriving DecidableEq

/-- The object built by `keywordMatch` on success
(`{url, intent, matched: true, score, matchedKeywords}`). -/
structure NavMatch where
  url : Str
  intent : Str
  score : Nat
  matchedKeywords : List Str
deriving DecidableEq

/-- The best-match fold of `matchFAQ` (lines 47–97): walk the entries,
replacing the current best exactly when `score > highestScore && score >= 10`. -/
def goFAQ (q : Str) (qws : List Str) :
    List FAQEntry → Option FAQMatch → Nat → Option FAQMatch
  | [], best, _ => best
  | f :: fs, best, hi =>
    if hi < itemScore q qws f.keywords ∧ 10 ≤ itemScore q qws f.keywords then
      goFAQ q qws fs
        (some ⟨f, itemScore q qws f.keywords, matchedKws q qws f.keywords⟩)
        (itemScore q qws f.keywords)
    else
      goFAQ q qws fs best hi

/-- `matchFAQ` (`aiService.js` lines 24–107): lowercase and trim the query,
compute its content words, and fold the best-match loop from
`bestMatch = null, highestScore = 0`. -/
def matchFAQ (faqs : List FAQEntry) (query : Str) : Option FAQMatch :=
  goFAQ (trimStr (toLowerStr query))
    (faqQueryWords (trimStr (toLowerStr query))) faqs none 0

/-- The best-match fold of `keywordMatch` (lines 123–167): replace the best
when `score > highestScore && score > 0`; returns the final
`(bestMatch, highestScore)` pair. -/
def goNav (q : Str) (qws : List Str) :
    List NavItem → Option NavMatch → Nat → Option NavMatch × Nat
  | [], best, hi => (best, hi)
  | it :: its, best, hi =>
    if hi < itemScore q qws it.keywords ∧ 0 < itemScore q qws it.keywords then
      goNav q qws its
        (some ⟨it.url, it.intent, itemScore q qws it.keywords,
               matchedKws q qws it.keywords⟩)
        (itemScore q qws it.keywords)
    else
      goNav q qws its best hi

/-- `keywordMatch` (`aiService.js` lines 112–178): fold the best-match loop,
then return the best only `if (bestMatch && highestScore >= 10)`. -/
def keywordMatch (site : List NavItem) (query : Str) : Option NavMatch :=
  match goNav (trimStr (toLowerStr query))
      (navQueryWords (trimStr (toLowerStr query))) site none 0 with
  | (some m, hi) => if 10 ≤ hi then some m else none
  | (none, _) => none

/-- Score that `matchFAQ` assigns to one keyword list for a given raw query
(the query is lowercased and trimmed, content words use the FAQ stop list). -/
def faqScoring (query : Str) (kws : List Str) : Nat :=
  itemScore (trimStr (toLowerStr query))
    (faqQueryWords (trimStr (toLowerStr query))) kws

/-- Score that `keywordMatch` assigns to one keyword list for a given raw
query (content words use the shorter navigation stop list). -/
def navScoring (query : Str) (kws : List Str) : Nat :=
  itemScore (trimStr (toLowerStr query))
    (navQueryWords (trimStr (toLowerStr query))) kws

/-- Outcome of the external AI classifier call in `aiMatch`: either the
(raw) text content of the model's reply, or a thrown transport/runtime
error (the `catch` branch of lines 242–245). -/
inductive AIOutcome where
  | ok (content : Str)
  | err
deriving DecidableEq

/-- Result object of `aiMatch`: `{url: "NOT_FOUND", matched: false}` or
`{url, intent, matched: true}`. -/
inductive AIResult where
  | notFound
  | found (url intent : Str)
deriving DecidableEq

/-- `aiMatch` (`aiService.js` lines 183–246): trim the model's reply; the
sentinel `"NOT_FOUND"` and any reply that is not the url of a `siteMap`
entry yield not-found; a thrown error is caught and yields not-found. -/
def aiMatch (site : List NavItem) (out : AIOutcome) : AIResult :=
  match out with
  | .err => .notFound
  | .ok content =>
    if trimStr content = ("NOT_FOUND").data then .notFound
    else
      match site.find? (fun item => decide (item.url = trimStr content)) with
      | none => .notFound
      | some item => .found (trimStr content) item.intent

/-- Classification decision of `detectNavigation`: `{type: "FAQ", faq}`,
`{type: "NAVIGATION", url, intent, ...}`, or `{type: "NOT_FOUND"}`. -/
inductive Decision where
  | dFAQ (m : FAQMatch)
  | dNAV (url intent : Str)
  | dNOTFOUND
deriving DecidableEq

/-- Result of `detectNavigation` instrumented with which later stages were
entered: `navRan` is true iff control reached the `keywordMatch` call
(step 2), `aiRan` iff it reached the `aiMatch` call (step 3).  The source
returns early before those calls, so a `false` flag means the stage's code
was never invoked. -/
structure DetectOut where
  decision : Decision
  navRan : Bool
  aiRan : Bool
deriving DecidableEq

/-- `detectNavigation` (`aiService.js` lines 251–292): FAQ match first;
on miss, navigation keyword match; on miss, the AI fallback, whose
`matched` result yields NAVIGATION and otherwise NOT_FOUND. -/
def detectNavigation (faqs : List FAQEntry) (site : List NavItem)
    (ai : AIOutcome) (query : Str) : DetectOut :=
  match matchFAQ faqs query with
  | some r => ⟨.dFAQ r, false, false⟩
  | none =>
    match keywordMatch site query with
    | some k => ⟨.dNAV k.url k.intent, true, false⟩
    | none =>
      match aiMatch site ai with
      | .found u i => ⟨.dNAV u i, true, true⟩
      | .notFound => ⟨.dNOTFOUND, true, true⟩

/-- `RATE_LIMIT.MAX_REQUESTS` (`rateLimiter.js` line 15). -/
def MAX_REQUESTS : Nat := 30

/-- `RATE_LIMIT.WINDOW_MS`: 12 hours in milliseconds (line 17). -/
def WINDOW_MS : Nat := 12 * 60 * 60 * 1000

/-- A per-identifier record of the request store
(`{count, firstRequest, lastRequest}`). -/
structure Record where
  count : Nat
  firstRequest : Nat
  lastRequest : Nat
deriving DecidableEq

/-- The in-memory `requestStore` `Map`, as an insertion-ordered
association list from identifier to record. -/
abbrev Store : Type := List (Str × Record)

/-- `requestStore.get(identifier)`. -/
def storeGet : Store → Str → Option Record
  | [], _ => none
  | (k, v) :: rest, id => if k = id then some v else storeGet rest id

/-- `requestStore.set(identifier, record)`: replace the record of an
existing key in place, else append (JS `Map` insertion order). -/
def storeSet : Store → Str → Record → Store
  | [], id, r => [(id, r)]
  | (k, v) :: rest, id, r =>
    if k = id then (id, r) :: rest else (k, v) :: storeSet rest id r

/-- Process state of the rate limiter: the in-memory store plus the
contents of the durable `rateLimits.json` file (`saveRateLimits` rewrites
the file wholesale from the store). -/
structure SysState where
  store : Store
  persisted : Store
deriving DecidableEq

/-- Outcome of one `rateLimiter` middleware call: `next()` without headers
(fresh/reset record), `next()` with the `X-RateLimit-*` headers
(incremented record), or the 429 response body
`{remaining, resetAt}` (denial). -/
inductive RLOutcome where
  | next
  | nextWithHeaders (remaining resetAt : Nat)
  | limited (remaining resetAt : Nat)
deriving DecidableEq

/-- `rateLimiter` (`rateLimiter.js` lines 70–143).  Absent record: create
`{count: 1, firstRequest: now, lastRequest: now}`, persist, allow.  Expired
window (`now - firstRequest > WINDOW_MS`): replace likewise, persist,
allow.  At quota (`count >= MAX_REQUESTS`): respond 429 with
`remaining: 0` and `resetAt = firstRequest + WINDOW_MS`, touching nothing.
Otherwise increment `count`, update `lastRequest`, persist every 5th
count, and allow with the rate-limit headers. -/
def rateLimiter (s : SysState) (id : Str) (now : Nat) : RLOutcome × SysState :=
  match storeGet s.store id with
  | none =>
    (.next, ⟨storeSet s.store id ⟨1, now, now⟩, storeSet s.store id ⟨1, now, now⟩⟩)
  | some record =>
    if WINDOW_MS < now - record.firstRequest then
      (.next, ⟨storeSet s.store id ⟨1, now, now⟩, storeSet s.store id ⟨1, now, now⟩⟩)
    else if MAX_REQUESTS ≤ record.count then
      (.limited 0 (record.firstRequest + WINDOW_MS), s)
    else
      (.nextWithHeaders (MAX_REQUESTS - (record.count + 1))
         (record.firstRequest + WINDOW_MS),
       ⟨storeSet s.store id ⟨record.count + 1, record.firstRequest, now⟩,
        if (record.count + 1) % 5 = 0 then
          storeSet s.store id ⟨record.count + 1, record.firstRequest, now⟩
        else s.persisted⟩)

/-- The hourly cleanup sweep (`rateLimiter.js` lines 46–61): delete every
record with `now - firstRequest > WINDOW_MS`, and persist only when at
least one record was removed. -/
def cleanup (s : SysState) (now : Nat) : SysState :=
  ⟨s.store.filter (fun p => !decide (WINDOW_MS < now - p.2.firstRequest)),
   if (s.store.filter (fun p => !decide (WINDOW_MS < now - p.2.firstRequest))).length
       < s.store.length then
     s.store.filter (fun p => !decide (WINDOW_MS < now - p.2.firstRequest))
   else s.persisted⟩

/-- Response of `getRateLimitStatus`:
`{remaining, resetAt, isLimited}`. -/
structure RLStatus where
  remaining : Nat
  resetAt : Option Nat
  isLimited : Bool
deriving DecidableEq

/-- `getRateLimitStatus` (`rateLimiter.js` lines 161–182): a pure read.
Absent or expired record: full quota remaining, `resetAt: null`.  Otherwise
`remaining = Math.max(0, MAX_REQUESTS - count)` (truncated subtraction on
`Nat`), `resetAt = firstRequest + WINDOW_MS`, `isLimited = count >= MAX`.
The source performs no store mutation and no persistence; the embedding
returns the state to make that frame explicit. -/
def getRateLimitStatus (s : SysState) (id : Str) (now : Nat) :
    RLStatus × SysState :=
  (match storeGet s.store id with
   | none => ⟨MAX_REQUESTS, none, false⟩
   | some r =>
     if WINDOW_MS < now - r.firstRequest then ⟨MAX_REQUESTS, none, false⟩
     else
       ⟨MAX_REQUESTS - r.count, some (r.firstRequest + WINDOW_MS),
        decide (MAX_REQUESTS ≤ r.count)⟩,
   s)

/-- States of the rate-limit service reachable from the empty store by
middleware calls and cleanup sweeps (`getRateLimitStatus` reads do not
change the state). -/
inductive RLReachable : SysState → Prop where
  | init : RLReachable ⟨[], []⟩
  | rl (id : Str) (now : Nat) {s : SysState} :
      RLReachable s → RLReachable (rateLimiter s id now).2
  | sweep (now : Nat) {s : SysState} :
      RLReachable s → RLReachable (cleanup s now)

/-- The first branch of the per-keyword chain fired: `q === keywordLower`
(`EXACT MATCH`). -/
abbrev ruleExact (q kw : Str) : Prop := q = toLowerStr kw

/-- The second branch fired: not exact, and substring containment either
direction (`EXACT PHRASE MATCH`). -/
abbrev ruleSubstr (q kw : Str) : Prop :=
  ¬ruleExact q kw ∧ substrCond q kw = true

/-- The third branch fired: neither exact nor substring, the keyword is
multi-word, and every keyword word fuzzy-matches a query content word
(`MULTI-WORD MATCH`). -/
abbrev ruleMulti (q : Str) (qws : List Str) (kw : Str) : Prop :=
  ¬ruleExact q kw ∧ substrCond q kw = false ∧ multiCond q qws kw = true

/-- The fourth branch fired: the keyword is a single word fuzzy-matching a
query content word (`SINGLE WORD MATCH`). -/
abbrev ruleSingle (q : Str) (qws : List Str) (kw : Str) : Prop :=
  ¬ruleExact q kw ∧ substrCond q kw = false ∧ multiCond q qws kw = false ∧
    singleCond qws kw = true

/-- Loop invariant of the `matchFAQ` best-match fold: either no best yet
and `highestScore = 0`, or the best's recorded score is `highestScore`,
is at least the threshold 10, and is the genuine item score of its entry. -/
def goodAccFAQ (q : Str) (qws : List Str) (best : Option FAQMatch) (hi : Nat) :
    Prop :=
  match best with
  | none => hi = 0
  | some m => m.score = hi ∧ 10 ≤ hi ∧ itemScore q qws m.faq.keywords = hi

/-- Loop invariant of the `keywordMatch` best-match fold: either no best
yet and `highestScore = 0`, or the best's recorded score is the positive
`highestScore`. -/
def goodAccNav (best : Option NavMatch) (hi : Nat) : Prop :=
  match best with
  | none => hi = 0
  | some m => m.score = hi ∧ 0 < hi

/-- Concrete query for the scoring-order counterexample, as `matchFAQ`
normalises it. -/
def qC3 : Str := trimStr (toLowerStr (("salomlar dunyolar").data))

/-- Its FAQ content words. -/
def qwsC3 : List Str := faqQueryWords qC3

/-- Concrete query of the "narx qancha" scenario, as `matchFAQ`
normalises it. -/
def qN : Str := trimStr (toLowerStr (("narx qancha").data))

/-- Its FAQ content words. -/
def qwsN : List Str := faqQueryWords qN

/-- A FAQ entry whose only keyword is `"narx"`. -/
def faqNarx : FAQEntry :=
  ⟨1, ("q1").data, ("a1").data, ("c").data, [("narx").data]⟩

/-- A FAQ entry whose only keyword is `"narx qancha"`. -/
def faqNarxQancha : FAQEntry :=
  ⟨2, ("q2").data, ("a2").data, ("c").data, [("narx qancha").data]⟩

/-- Concrete query whose only token longer than two characters is the
FAQ-only stop word `"qanday"`. -/
def qU : Str := trimStr (toLowerStr (("u qanday").data))

/-- A navigation item for concrete instantiations. -/
def navDemo : NavItem := ⟨("/a").data, ("A").data, [("alpha").data]⟩

theorem storeGet_storeSet (l : Store) (id : Str) (r : Record) :
    storeGet (storeSet l id r) id = some r := by
  induction l with
  | nil => simp [storeSet, storeGet]
  | cons p rest ih =>
    obtain ⟨k, v⟩ := p
    by_cases h : k = id
    · simp [storeSet, storeGet, h]
    · simp [storeSet, storeGet, h, ih]

theorem storeGet_mem {l : Store} {id : Str} {r : Record}
    (h : storeGet l id = some r) : (id, r) ∈ l := by
  induction l with
  | nil => simp [storeGet] at h
  | cons p rest ih =>
    obtain ⟨k, v⟩ := p
    by_cases hk : k = id
    · subst hk
      rw [storeGet, if_pos rfl] at h
      injection h with h
      subst h
      exact List.mem_cons_self _ _
    · rw [storeGet, if_neg hk] at h
      exact List.mem_cons_of_mem _ (ih h)

theorem mem_storeSet {l : Store} {id : Str} {r : Record} {p : Str × Record}
    (h : p ∈ storeSet l id r) : p ∈ l ∨ p.2 = r := by
  induction l with
  | nil =>
    rw [storeSet] at h
    rcases List.mem_singleton.mp h with rfl
    exact Or.inr rfl
  | cons e rest ih =>
    obtain ⟨k, v⟩ := e
    by_cases hk : k = id
    · rw [storeSet, if_pos hk] at h
      rcases List.mem_cons.mp h with rfl | h'
      · exact Or.inr rfl
      · exact Or.inl (List.mem_cons_of_mem _ h')
    · rw [storeSet, if_neg hk] at h
      rcases List.mem_cons.mp h with rfl | h'
      · exact Or.inl (List.mem_cons_self _ _)
      · rcases ih h' with h'' | h''
        · exact Or.inl (List.mem_cons_of_mem _ h'')
        · exact Or.inr h''

/-- Claim C1: an identifier whose record is within the current window with
`count >= 30` is denied: the middleware returns the 429 outcome with
`remaining: 0` and `resetAt = firstRequest + WINDOW_MS`, and leaves the
whole state — in particular the identifier's record — unchanged. -/
theorem rateLimiter_denies_at_quota (s : SysState) (id : Str) (now : Nat)
    (r : Record)
    (hget : storeGet s.store id = some r)
    (hwin : now - r.firstRequest ≤ WINDOW_MS)
    (hcnt : MAX_REQUESTS ≤ r.count) :
    rateLimiter s id now =
      (RLOutcome.limited 0 (r.firstRequest + WINDOW_MS), s) := by
  simp only [rateLimiter, hget]
  rw [if_neg (by omega), if_pos hcnt]

theorem rateLimiter_denies_at_quota_witness :
    rateLimiter ⟨[(("c").data, ⟨30, 100, 200⟩)], []⟩ (("c").data) 500 =
      (RLOutcome.limited 0 (100 + WINDOW_MS),
       ⟨[(("c").data, ⟨30, 100, 200⟩)], []⟩) :=
  rateLimiter_denies_at_quota _ _ _ ⟨30, 100, 200⟩ (by decide) (by decide)
    (by decide)

/-- Claim C5: once `now - firstRequest > WINDOW_MS`, the next request is
allowed, the record is replaced by `{count: 1, firstRequest: now,
lastRequest: now}` regardless of the prior count (the hypothesis places no
bound on it), and the new store is persisted immediately. -/
theorem rateLimiter_resets_after_window (s : SysState) (id : Str) (now : Nat)
    (r : Record)
    (hget : storeGet s.store id = some r)
    (hwin : WINDOW_MS < now - r.firstRequest) :
    rateLimiter s id now =
      (RLOutcome.next,
       ⟨storeSet s.store id ⟨1, now, now⟩, storeSet s.store id ⟨1, now, now⟩⟩) ∧
    storeGet (rateLimiter s id now).2.store id = some ⟨1, now, now⟩ ∧
    (rateLimiter s id now).2.persisted = (rateLimiter s id now).2.store := by
  have h1 : rateLimiter s id now =
      (RLOutcome.next,
       ⟨storeSet s.store id ⟨1, now, now⟩, storeSet s.store id ⟨1, now, now⟩⟩) := by
    simp only [rateLimiter, hget]
    rw [if_pos hwin]
  refine ⟨h1, ?_, ?_⟩
  · rw [h1]
    exact storeGet_storeSet s.store id _
  · rw [h1]

theorem rateLimiter_resets_after_window_witness :
    rateLimiter ⟨[(("c").data, ⟨35, 100, 200⟩)], []⟩ (("c").data) 99999999 =
      (RLOutcome.next,
       ⟨[(("c").data, ⟨1, 99999999, 99999999⟩)],
        [(("c").data, ⟨1, 99999999, 99999999⟩)]⟩) := by
  have h := rateLimiter_resets_after_window
    ⟨[(("c").data, ⟨35, 100, 200⟩)], []⟩ (("c").data) 99999999 ⟨35, 100, 200⟩
    (by decide) (by decide)
  rw [h.1]
  decide

/-- Claim C8: `getRateLimitStatus` returns the state unchanged (the source
performs no mutation and no persistence); an absent or expired record
reports the full quota remaining and a null reset time; a live record
reports `remaining = MAX_REQUESTS - count` (truncated at zero, as
`Math.max(0, ...)`) and `resetAt = firstRequest + WINDOW_MS`. -/
theorem getRateLimitStatus_readonly (s : SysState) (id : Str) (now : Nat) :
    (getRateLimitStatus s id now).2 = s ∧
    (storeGet s.store id = none →
      (getRateLimitStatus s id now).1 = ⟨MAX_REQUESTS, none, false⟩) ∧
    (∀ r, storeGet s.store id = some r → WINDOW_MS < now - r.firstRequest →
      (getRateLimitStatus s id now).1 = ⟨MAX_REQUESTS, none, false⟩) ∧
    (∀ r, storeGet s.store id = some r → now - r.firstRequest ≤ WINDOW_MS →
      (getRateLimitStatus s id now).1 =
        ⟨MAX_REQUESTS - r.count, some (r.firstRequest + WINDOW_MS),
         decide (MAX_REQUESTS ≤ r.count)⟩) := by
  refine ⟨rfl, ?_, ?_, ?_⟩
  · intro h
    simp [getRateLimitStatus, h]
  · intro r h hw
    simp only [getRateLimitStatus, h]
    rw [if_pos hw]
  · intro r h hw
    simp only [getRateLimitStatus, h]
    rw [if_neg (by omega)]

theorem getRateLimitStatus_readonly_witness :
    (getRateLimitStatus ⟨[(("c").data, ⟨7, 100, 100⟩)], []⟩ (("c").data) 500).2 =
      ⟨[(("c").data, ⟨7, 100, 100⟩)], []⟩ ∧
    (getRateLimitStatus ⟨[(("c").data, ⟨7, 100, 100⟩)], []⟩ (("c").data) 500).1 =
      ⟨23, some (100 + WINDOW_MS), false⟩ := by
  have h := getRateLimitStatus_readonly
    ⟨[(("c").data, ⟨7, 100, 100⟩)], []⟩ (("c").data) 500
  refine ⟨h.1, ?_⟩
  rw [h.2.2.2 ⟨7, 100, 100⟩ (by decide) (by decide)]
  decide

theorem rateLimiter_preserves_counts {s : SysState} (id0 : Str) (now : Nat)
    (h : ∀ p ∈ s.store, 1 ≤ p.2.count ∧ p.2.count ≤ MAX_REQUESTS) :
    ∀ p ∈ (rateLimiter s id0 now).2.store,
      1 ≤ p.2.count ∧ p.2.count ≤ MAX_REQUESTS := by
  intro p hp
  cases hget : storeGet s.store id0 with
  | none =>
    have hst : (rateLimiter s id0 now).2.store =
        storeSet s.store id0 ⟨1, now, now⟩ := by
      simp [rateLimiter, hget]
    rw [hst] at hp
    rcases mem_storeSet hp with h' | h'
    · exact h p h'
    · rw [h']
      exact ⟨Nat.le_refl 1, by simp [MAX_REQUESTS]⟩
  | some record =>
    by_cases hw : WINDOW_MS < now - record.firstRequest
    · have hst : (rateLimiter s id0 now).2.store =
          storeSet s.store id0 ⟨1, now, now⟩ := by
        simp [rateLimiter, hget, hw]
      rw [hst] at hp
      rcases mem_storeSet hp with h' | h'
      · exact h p h'
      · rw [h']
        exact ⟨Nat.le_refl 1, by simp [MAX_REQUESTS]⟩
    · by_cases hc : MAX_REQUESTS ≤ record.count
      · have hst : (rateLimiter s id0 now).2 = s := by
          simp [rateLimiter, hget, hw, hc]
        rw [hst] at hp
        exact h p hp
      · have hst : (rateLimiter s id0 now).2.store =
            storeSet s.store id0 ⟨record.count + 1, record.firstRequest, now⟩ := by
          simp [rateLimiter, hget, hw, hc]
        rw [hst] at hp
        rcases mem_storeSet hp with h' | h'
        · exact h p h'
        · rw [h']
          exact ⟨Nat.succ_le_succ (Nat.zero_le _),
                 Nat.succ_le_of_lt (Nat.lt_of_not_le hc)⟩

/-- Claim C9: in every reachable state of the rate-limit store, every
record satisfies `1 <= count <= MAX_REQUESTS`: records are created with
`count = 1`, incremented only under `count < MAX_REQUESTS`, never mutated
on denial, and only removed by the sweep. -/
theorem store_count_invariant {s : SysState} (hs : RLReachable s) :
    ∀ (id : Str) (r : Record), (id, r) ∈ s.store →
      1 ≤ r.count ∧ r.count ≤ MAX_REQUESTS := by
  induction hs with
  | init =>
    intro id r h
    simp at h
  | rl id0 now h ih =>
    intro id r hmem
    exact rateLimiter_preserves_counts id0 now
      (fun p hp => ih p.1 p.2 (by rw [Prod.mk.eta]; exact hp)) (id, r) hmem
  | sweep now h ih =>
    intro id r hmem
    simp only [cleanup] at hmem
    exact ih id r (List.mem_of_mem_filter hmem)

theorem store_count_invariant_witness :
    1 ≤ (Record.mk 1 7 7).count ∧ (Record.mk 1 7 7).count ≤ MAX_REQUESTS :=
  store_count_invariant (RLReachable.rl (("c").data) 7 RLReachable.init)
    (("c").data) ⟨1, 7, 7⟩ (by decide)

/-- Claim C2: the classification cascade short-circuits with fixed
priority.  A FAQ match yields the FAQ decision with neither the navigation
matcher nor the AI classifier stage entered (for every AI outcome);
a navigation keyword match after a FAQ miss yields NAVIGATION without the
AI stage; the AI fallback runs exactly when both lexical stages miss. -/
theorem detectNavigation_cascade (faqs : List FAQEntry) (site : List NavItem)
    (ai : AIOutcome) (query : Str) :
    (∀ r, matchFAQ faqs query = some r →
      detectNavigation faqs site ai query = ⟨Decision.dFAQ r, false, false⟩) ∧
    (∀ k, matchFAQ faqs query = none → keywordMatch site query = some k →
      detectNavigation faqs site ai query =
        ⟨Decision.dNAV k.url k.intent, true, false⟩) ∧
    (matchFAQ faqs query = none → keywordMatch site query = none →
      (detectNavigation faqs site ai query).navRan = true ∧
      (detectNavigation faqs site ai query).aiRan = true ∧
      detectNavigation faqs site ai query =
        (match aiMatch site ai with
         | .found u i => ⟨Decision.dNAV u i, true, true⟩
         | .notFound => ⟨Decision.dNOTFOUND, true, true⟩)) := by
  refine ⟨?_, ?_, ?_⟩
  · intro r h
    simp [detectNavigation, h]
  · intro k h1 h2
    simp [detectNavigation, h1, h2]
  · intro h1 h2
    have h3 : detectNavigation faqs site ai query =
        (match aiMatch site ai with
         | .found u i => ⟨Decision.dNAV u i, true, true⟩
         | .notFound => ⟨Decision.dNOTFOUND, true, true⟩) := by
      simp [detectNavigation, h1, h2]
    refine ⟨?_, ?_, h3⟩ <;> rw [h3] <;> cases aiMatch site ai <;> rfl

theorem detectNavigation_cascade_witness :
    detectNavigation [faqNarx] [navDemo] AIOutcome.err (("narx").data) =
      ⟨Decision.dFAQ ⟨faqNarx, 100, [("narx").data]⟩, false, false⟩ :=
  (detectNavigation_cascade [faqNarx] [navDemo] AIOutcome.err
    (("narx").data)).1 _ (by decide)

/-- Claim C6: `aiMatch` yields a navigation target only when the (trimmed)
classifier reply is exactly the url of a `siteMap` member; the sentinel
`"NOT_FOUND"`, any reply whose url is not in the set, and a thrown
classifier error all yield not-found, which the orchestrator turns into
the NOT_FOUND decision — no classifier failure escapes as an error (the
catch branch is total). -/
theorem aiMatch_validates_url (site : List NavItem) (out : AIOutcome) :
    (∀ u i, aiMatch site out = AIResult.found u i →
      ∃ it, it ∈ site ∧ it.url = u ∧ it.intent = i) ∧
    (out = AIOutcome.err → aiMatch site out = AIResult.notFound) ∧
    (∀ c, out = AIOutcome.ok c → trimStr c = ("NOT_FOUND").data →
      aiMatch site out = AIResult.notFound) ∧
    (∀ c, out = AIOutcome.ok c → (∀ it ∈ site, it.url ≠ trimStr c) →
      aiMatch site out = AIResult.notFound) ∧
    (∀ faqs query, matchFAQ faqs query = none →
      keywordMatch site query = none →
      (aiMatch site out = AIResult.notFound →
        (detectNavigation faqs site out query).decision = Decision.dNOTFOUND) ∧
      (∀ u i, aiMatch site out = AIResult.found u i →
        (detectNavigation faqs site out query).decision = Decision.dNAV u i)) := by
  refine ⟨?_, ?_, ?_, ?_, ?_⟩
  · intro u i h
    cases out with
    | err => exact AIResult.noConfusion h
    | ok c =>
      rw [aiMatch] at h
      by_cases hnf : trimStr c = ("NOT_FOUND").data
      · rw [if_pos hnf] at h
        exact AIResult.noConfusion h
      · rw [if_neg hnf] at h
        cases hfind : site.find? (fun item => decide (item.url = trimStr c)) with
        | none =>
          rw [hfind] at h
          exact AIResult.noConfusion h
        | some item =>
          rw [hfind] at h
          injection h with hu hi
          refine ⟨item, List.mem_of_find?_eq_some hfind, ?_, hi⟩
          rw [← hu]
          have hp : item.url = trimStr c := by
            simpa using List.find?_some hfind
          exact hp
  · intro h
    rw [h, aiMatch]
  · intro c h hnf
    rw [h, aiMatch, if_pos hnf]
  · intro c h hnone
    rw [h, aiMatch]
    by_cases hnf : trimStr c = ("NOT_FOUND").data
    · rw [if_pos hnf]
    · rw [if_neg hnf]
      have hfind : site.find? (fun item => decide (item.url = trimStr c)) = none := by
        rw [List.find?_eq_none]
        intro it hit
        simpa using hnone it hit
      rw [hfind]
  · intro faqs query h1 h2
    constructor
    · intro hai
      simp [detectNavigation, h1, h2, hai]
    · intro u i hai
      simp [detectNavigation, h1, h2, hai]

theorem aiMatch_validates_url_witness :
    aiMatch [navDemo] AIOutcome.err = AIResult.notFound :=
  (aiMatch_validates_url [navDemo] AIOutcome.err).2.1 rfl

/-- Claim C3 counterexample: for the query "salomlar dunyolar", the
substring rule fires on keyword "salomlar" contributing 50, while the
multi-word fuzzy rule fires on the two-word keyword "salom dunyo"
contributing 30 × 2 = 60 — so a substring containment does NOT yield a
strictly higher contribution than a multi-word fuzzy match. -/
theorem keyword_rule_ordering_cex :
    ruleSubstr qC3 (("salomlar").data) ∧
    ruleMulti qC3 qwsC3 (("salom dunyo").data) ∧
    keywordScore qC3 qwsC3 (("salomlar").data) = 50 ∧
    keywordScore qC3 qwsC3 (("salom dunyo").data) = 60 ∧
    ¬(keywordScore qC3 qwsC3 (("salom dunyo").data) <
        keywordScore qC3 qwsC3 (("salomlar").data)) := by
  decide

/-- Claim C3 (amended): the per-keyword contributions are exact = 100,
substring = 50, multi-word fuzzy = 30 × word count with word count ≥ 2
(hence always strictly ABOVE the substring contribution, contrary to the
original claim), and single-word fuzzy = 10; so exact > substring >
single-word, and multi-word > substring > single-word, while exact
outscores a multi-word fuzzy only for keywords of at most 3 words. -/
theorem keyword_rule_contributions (q : Str) (qws : List Str) (kw : Str) :
    (ruleExact q kw → keywordScore q qws kw = 100) ∧
    (ruleSubstr q kw → keywordScore q qws kw = 50) ∧
    (ruleMulti q qws kw →
      keywordScore q qws kw = 30 * (kwWords kw).length ∧
      2 ≤ (kwWords kw).length ∧
      50 < keywordScore q qws kw) ∧
    (ruleSingle q qws kw → keywordScore q qws kw = 10) := by
  refine ⟨?_, ?_, ?_, ?_⟩
  · intro h
    simp [keywordScore, h]
  · rintro ⟨h1, h2⟩
    simp [keywordScore, h1, h2]
  · rintro ⟨h1, h2, h3⟩
    have hs : keywordScore q qws kw = 30 * (kwWords kw).length := by
      simp [keywordScore, h1, h2, h3]
    have hlen : 2 ≤ (kwWords kw).length := by
      have h3' := h3
      simp only [multiCond, Bool.and_eq_true, decide_eq_true_eq] at h3'
      omega
    exact ⟨hs, hlen, by rw [hs]; omega⟩
  · rintro ⟨h1, h2, h3, h4⟩
    simp [keywordScore, h1, h2, h3, h4]

theorem keyword_rule_contributions_witness :
    keywordScore qC3 qwsC3 (("salom dunyo").data) =
      30 * (kwWords (("salom dunyo").data)).length ∧
    2 ≤ (kwWords (("salom dunyo").data)).length ∧
    50 < keywordScore qC3 qwsC3 (("salom dunyo").data) :=
  (keyword_rule_contributions qC3 qwsC3 (("salom dunyo").data)).2.2.1
    (by decide)

/-- Claim C4 counterexample: for the query "narx qancha" the keyword
"narx" is contained in the query, so the `EXACT PHRASE MATCH` branch fires
and scores 50 — not 10 as the claim (and the spec scenario) states. -/
theorem narx_scores_fifty_cex :
    keywordScore qN qwsN (("narx").data) = 50 ∧
    keywordScore qN qwsN (("narx").data) ≠ 10 := by
  decide

/-- Claim C4 (amended): for the query "narx qancha" the keyword "narx"
scores 50 (substring containment, not 10: the query contains the keyword)
and the keyword "narx qancha" scores 100 (exact), so the FAQ entry
carrying the exact keyword is selected over the one carrying only "narx",
in either iteration order. -/
theorem narx_qancha_selection :
    keywordScore qN qwsN (("narx").data) = 50 ∧
    ruleSubstr qN (("narx").data) ∧
    keywordScore qN qwsN (("narx qancha").data) = 100 ∧
    ruleExact qN (("narx qancha").data) ∧
    matchFAQ [faqNarx, faqNarxQancha] (("narx qancha").data) =
      some ⟨faqNarxQancha, 100, [("narx qancha").data]⟩ ∧
    matchFAQ [faqNarxQancha, faqNarx] (("narx qancha").data) =
      some ⟨faqNarxQancha, 100, [("narx qancha").data]⟩ := by
  decide

/-- Claim C10: `matchFAQ` filters content words with two additional stop
words ("nima", "qanday") compared to `keywordMatch`; for the query
"u qanday" (whose only token longer than 2 characters is "qanday") the two
matchers give the same keyword list "qandayroq" the different fuzzy scores
0 and 10, so the two scoring functions differ as functions of
(query, keywords). -/
theorem stopword_divergence :
    faqStopWords = navStopWords ++ [("nima").data, ("qanday").data] ∧
    faqQueryWords qU = [] ∧
    navQueryWords qU = [("qanday").data] ∧
    faqScoring (("u qanday").data) [("qandayroq").data] = 0 ∧
    navScoring (("u qanday").data) [("qandayroq").data] = 10 ∧
    faqScoring ≠ navScoring := by
  refine ⟨by decide, by decide, by decide, by decide, by decide, ?_⟩
  intro h
  have h2 := congrFun (congrFun h (("u qanday").data)) [("qandayroq").data]
  exact absurd h2 (by decide)

theorem goFAQ_some_char (q : Str) (qws : List Str) :
    ∀ (fs : List FAQEntry) (best : Option FAQMatch) (hi : Nat),
      goodAccFAQ q qws best hi →
      ∀ m, goFAQ q qws fs best hi = some m →
        hi ≤ m.score ∧ 10 ≤ m.score ∧
        itemScore q qws m.faq.keywords = m.score ∧
        ∀ g ∈ fs, itemScore q qws g.keywords ≤ m.score := by
  intro fs
  induction fs with
  | nil =>
    intro best hi hacc m hm
    rw [goFAQ] at hm
    cases best with
    | none => exact Option.noConfusion hm
    | some m0 =>
      injection hm with hm
      subst hm
      obtain ⟨h1, h2, h3⟩ := hacc
      exact ⟨Nat.le_of_eq h1.symm, h1 ▸ h2, h1 ▸ h3, by intro g hg; simp at hg⟩
  | cons f fs ih =>
    intro best hi hacc m hm
    rw [goFAQ] at hm
    by_cases hc : hi < itemScore q qws f.keywords ∧ 10 ≤ itemScore q qws f.keywords
    · rw [if_pos hc] at hm
      have hacc' : goodAccFAQ q qws
          (some ⟨f, itemScore q qws f.keywords, matchedKws q qws f.keywords⟩)
          (itemScore q qws f.keywords) := ⟨rfl, hc.2, rfl⟩
      obtain ⟨ha, hb, hsc, hd⟩ := ih _ _ hacc' m hm
      refine ⟨Nat.le_trans (Nat.le_of_lt hc.1) ha, hb, hsc, ?_⟩
      intro g hg
      rcases List.mem_cons.mp hg with rfl | hg'
      · exact ha
      · exact hd g hg'
    · rw [if_neg hc] at hm
      obtain ⟨ha, hb, hsc, hd⟩ := ih _ _ hacc m hm
      refine ⟨ha, hb, hsc, ?_⟩
      intro g hg
      rcases List.mem_cons.mp hg with rfl | hg'
      · rcases not_and_or.mp hc with h' | h'
        · exact Nat.le_trans (Nat.le_of_not_lt h') ha
        · exact Nat.le_trans (Nat.le_of_lt (Nat.lt_of_not_le h')) hb
      · exact hd g hg'

theorem goFAQ_first_char (q : Str) (qws : List Str) :
    ∀ (fs : List FAQEntry) (best : Option FAQMatch) (hi : Nat),
      goodAccFAQ q qws best hi →
      ∀ m, goFAQ q qws fs best hi = some m →
        best = some m ∨
        (10 ≤ m.score ∧
         ∃ pre post, fs = pre ++ m.faq :: post ∧
           itemScore q qws m.faq.keywords = m.score ∧ hi < m.score ∧
           ∀ g ∈ pre, itemScore q qws g.keywords < m.score) := by
  intro fs
  induction fs with
  | nil =>
    intro best hi hacc m hm
    rw [goFAQ] at hm
    exact Or.inl hm
  | cons f fs ih =>
    intro best hi hacc m hm
    rw [goFAQ] at hm
    by_cases hc : hi < itemScore q qws f.keywords ∧ 10 ≤ itemScore q qws f.keywords
    · rw [if_pos hc] at hm
      have hacc' : goodAccFAQ q qws
          (some ⟨f, itemScore q qws f.keywords, matchedKws q qws f.keywords⟩)
          (itemScore q qws f.keywords) := ⟨rfl, hc.2, rfl⟩
      rcases ih _ _ hacc' m hm with heq | ⟨h10, pre, post, hsplit, hsc, hlt, hpre⟩
      · injection heq with heq'
        subst heq'
        refine Or.inr ⟨hc.2, [], fs, rfl, rfl, hc.1, ?_⟩
        intro g hg
        simp at hg
      · refine Or.inr ⟨h10, f :: pre, post, by rw [hsplit]; rfl, hsc,
          Nat.lt_trans hc.1 hlt, ?_⟩
        intro g hg
        rcases List.mem_cons.mp hg with rfl | hg'
        · exact hlt
        · exact hpre g hg'
    · rw [if_neg hc] at hm
      rcases ih _ _ hacc m hm with heq | ⟨h10, pre, post, hsplit, hsc, hlt, hpre⟩
      · exact Or.inl heq
      · refine Or.inr ⟨h10, f :: pre, post, by rw [hsplit]; rfl, hsc, hlt, ?_⟩
        intro g hg
        rcases List.mem_cons.mp hg with rfl | hg'
        · rcases not_and_or.mp hc with h' | h'
          · exact Nat.lt_of_le_of_lt (Nat.le_of_not_lt h') hlt
          · exact Nat.lt_of_lt_of_le (Nat.lt_of_not_le h') h10
        · exact hpre g hg'

theorem goFAQ_ne_none (q : Str) (qws : List Str) :
    ∀ (fs : List FAQEntry) (m0 : FAQMatch) (hi : Nat),
      goFAQ q qws fs (some m0) hi ≠ none := by
  intro fs
  induction fs with
  | nil =>
    intro m0 hi h
    rw [goFAQ] at h
    exact Option.noConfusion h
  | cons f fs ih =>
    intro m0 hi h
    rw [goFAQ] at h
    by_cases hc : hi < itemScore q qws f.keywords ∧ 10 ≤ itemScore q qws f.keywords
    · rw [if_pos hc] at h
      exact ih _ _ h
    · rw [if_neg hc] at h
      exact ih _ _ h

theorem goFAQ_none_iff (q : Str) (qws : List Str) :
    ∀ fs : List FAQEntry,
      goFAQ q qws fs none 0 = none ↔
        ∀ g ∈ fs, itemScore q qws g.keywords < 10 := by
  intro fs
  induction fs with
  | nil => simp [goFAQ]
  | cons f fs ih =>
    rw [goFAQ]
    by_cases hc : 0 < itemScore q qws f.keywords ∧ 10 ≤ itemScore q qws f.keywords
    · rw [if_pos hc]
      constructor
      · intro h
        exact absurd h (goFAQ_ne_none q qws fs _ _)
      · intro h
        exact absurd (h f (List.mem_cons_self f fs)) (Nat.not_lt.mpr hc.2)
    · have hf : itemScore q qws f.keywords < 10 := by
        rcases not_and_or.mp hc with h' | h'
        · omega
        · exact Nat.lt_of_not_le h'
      rw [if_neg hc, ih]
      simp [List.forall_mem_cons, hf]

theorem goNav_some_char (q : Str) (qws : List Str) :
    ∀ (its : List NavItem) (best : Option NavMatch) (hi : Nat),
      goodAccNav best hi →
      ∀ m hi', goNav q qws its best hi = (some m, hi') →
        hi ≤ m.score ∧ m.score = hi' ∧
        ∀ g ∈ its, itemScore q qws g.keywords ≤ m.score := by
  intro its
  induction its with
  | nil =>
    intro best hi hacc m hi' hm
    rw [goNav] at hm
    injection hm with hm1 hm2
    subst hm1
    subst hm2
    obtain ⟨h1, h2⟩ := hacc
    exact ⟨Nat.le_of_eq h1.symm, h1, by intro g hg; simp at hg⟩
  | cons f fs ih =>
    intro best hi hacc m hi' hm
    rw [goNav] at hm
    by_cases hc : hi < itemScore q qws f.keywords ∧ 0 < itemScore q qws f.keywords
    · rw [if_pos hc] at hm
      have hacc' : goodAccNav
          (some ⟨f.url, f.intent, itemScore q qws f.keywords,
                 matchedKws q qws f.keywords⟩)
          (itemScore q qws f.keywords) := ⟨rfl, hc.2⟩
      obtain ⟨ha, hb, hd⟩ := ih _ _ hacc' m hi' hm
      refine ⟨Nat.le_trans (Nat.le_of_lt hc.1) ha, hb, ?_⟩
      intro g hg
      rcases List.mem_cons.mp hg with rfl | hg'
      · exact ha
      · exact hd g hg'
    · rw [if_neg hc] at hm
      obtain ⟨ha, hb, hd⟩ := ih _ _ hacc m hi' hm
      refine ⟨ha, hb, ?_⟩
      intro g hg
      rcases List.mem_cons.mp hg with rfl | hg'
      · rcases not_and_or.mp hc with h' | h'
        · exact Nat.le_trans (Nat.le_of_not_lt h') ha
        · have : itemScore q qws g.keywords = 0 := by omega
          omega
      · exact hd g hg'

theorem goNav_first_char (q : Str) (qws : List Str) :
    ∀ (its : List NavItem) (best : Option NavMatch) (hi : Nat),
      goodAccNav best hi →
      ∀ m hi', goNav q qws its best hi = (some m, hi') →
        best = some m ∨
        ∃ pre it post, its = pre ++ it :: post ∧
          m.url = it.url ∧ m.intent = it.intent ∧
          itemScore q qws it.keywords = m.score ∧ hi < m.score ∧
          ∀ g ∈ pre, itemScore q qws g.keywords < m.score := by
  intro its
  induction its with
  | nil =>
    intro best hi hacc m hi' hm
    rw [goNav] at hm
    injection hm with hm1 hm2
    exact Or.inl hm1
  | cons f fs ih =>
    intro best hi hacc m hi' hm
    rw [goNav] at hm
    by_cases hc : hi < itemScore q qws f.keywords ∧ 0 < itemScore q qws f.keywords
    · rw [if_pos hc] at hm
      have hacc' : goodAccNav
          (some ⟨f.url, f.intent, itemScore q qws f.keywords,
                 matchedKws q qws f.keywords⟩)
          (itemScore q qws f.keywords) := ⟨rfl, hc.2⟩
      rcases ih _ _ hacc' m hi' hm with heq |
        ⟨pre, it, post, hsplit, hu, hin, hsc, hlt, hpre⟩
      · injection heq with heq'
        subst heq'
        refine Or.inr ⟨[], f, fs, rfl, rfl, rfl, rfl, hc.1, ?_⟩
        intro g hg
        simp at hg
      · refine Or.inr ⟨f :: pre, it, post, by rw [hsplit]; rfl, hu, hin, hsc,
          Nat.lt_trans hc.1 hlt, ?_⟩
        intro g hg
        rcases List.mem_cons.mp hg with rfl | hg'
        · exact hlt
        · exact hpre g hg'
    · rw [if_neg hc] at hm
      rcases ih _ _ hacc m hi' hm with heq |
        ⟨pre, it, post, hsplit, hu, hin, hsc, hlt, hpre⟩
      · exact Or.inl heq
      · refine Or.inr ⟨f :: pre, it, post, by rw [hsplit]; rfl, hu, hin, hsc,
          hlt, ?_⟩
        intro g hg
        rcases List.mem_cons.mp hg with rfl | hg'
        · rcases not_and_or.mp hc with h' | h'
          · exact Nat.lt_of_le_of_lt (Nat.le_of_not_lt h') hlt
          · have hz : itemScore q qws g.keywords = 0 := by omega
            omega
        · exact hpre g hg'

theorem goNav_fst_ne_none (q : Str) (qws : List Str) :
    ∀ (its : List NavItem) (m0 : NavMatch) (hi : Nat),
      (goNav q qws its (some m0) hi).1 ≠ none := by
  intro its
  induction its with
  | nil =>
    intro m0 hi h
    rw [goNav] at h
    exact Option.noConfusion h
  | cons f fs ih =>
    intro m0 hi h
    rw [goNav] at h
    by_cases hc : hi < itemScore q qws f.keywords ∧ 0 < itemScore q qws f.keywords
    · rw [if_pos hc] at h
      exact ih _ _ h
    · rw [if_neg hc] at h
      exact ih _ _ h

theorem goNav_none_iff (q : Str) (qws : List Str) :
    ∀ its : List NavItem,
      (goNav q qws its none 0).1 = none ↔
        ∀ g ∈ its, itemScore q qws g.keywords = 0 := by
  intro its
  induction its with
  | nil => simp [goNav]
  | cons f fs ih =>
    rw [goNav]
    by_cases hc : 0 < itemScore q qws f.keywords ∧ 0 < itemScore q qws f.keywords
    · rw [if_pos hc]
      constructor
      · intro h
        exact absurd h (goNav_fst_ne_none q qws fs _ _)
      · intro h
        have := h f (List.mem_cons_self f fs)
        omega
    · have hf : itemScore q qws f.keywords = 0 := by
        rcases not_and_or.mp hc with h' | h' <;> omega
      rw [if_neg hc, ih]
      simp [List.forall_mem_cons, hf]

/-- Claim C7: both matchers return the item with the strictly highest
total score; on a tie, the first item encountered during iteration is
kept (every item strictly before the winner scores strictly less, and no
item anywhere scores more); `none` is returned exactly when no item
reaches the minimum score 10 — in particular on the empty item set. -/
theorem matcher_selects_first_max (query : Str) (faqs : List FAQEntry)
    (site : List NavItem) :
    (∀ m, matchFAQ faqs query = some m →
      10 ≤ m.score ∧
      faqScoring query m.faq.keywords = m.score ∧
      (∀ g ∈ faqs, faqScoring query g.keywords ≤ m.score) ∧
      ∃ pre post, faqs = pre ++ m.faq :: post ∧
        ∀ g ∈ pre, faqScoring query g.keywords < m.score) ∧
    (matchFAQ faqs query = none ↔
      ∀ g ∈ faqs, faqScoring query g.keywords < 10) ∧
    (∀ m, keywordMatch site query = some m →
      10 ≤ m.score ∧
      (∀ g ∈ site, navScoring query g.keywords ≤ m.score) ∧
      ∃ pre it post, site = pre ++ it :: post ∧
        m.url = it.url ∧ m.intent = it.intent ∧
        navScoring query it.keywords = m.score ∧
        ∀ g ∈ pre, navScoring query g.keywords < m.score) ∧
    (keywordMatch site query = none ↔
      ∀ g ∈ site, navScoring query g.keywords < 10) := by
  refine ⟨?_, ?_, ?_, ?_⟩
  · intro m hm
    rw [matchFAQ] at hm
    obtain ⟨-, h10, hsc, hub⟩ := goFAQ_some_char _ _ faqs none 0 rfl m hm
    rcases goFAQ_first_char _ _ faqs none 0 rfl m hm with heq |
      ⟨-, pre, post, hsplit, -, -, hpre⟩
    · exact Option.noConfusion heq
    · exact ⟨h10, hsc, hub, pre, post, hsplit, hpre⟩
  · rw [matchFAQ]
    exact goFAQ_none_iff _ _ faqs
  · intro m hm
    rcases hgo : goNav (trimStr (toLowerStr query))
        (navQueryWords (trimStr (toLowerStr query))) site none 0 with ⟨b, hi⟩
    cases b with
    | none =>
      have hred : keywordMatch site query = none := by
        rw [keywordMatch, hgo]
      rw [hred] at hm
      exact Option.noConfusion hm
    | some m0 =>
      have hred : keywordMatch site query =
          if 10 ≤ hi then some m0 else none := by
        rw [keywordMatch, hgo]
      rw [hred] at hm
      by_cases hth : 10 ≤ hi
      · rw [if_pos hth] at hm
        injection hm with hm
        subst hm
        obtain ⟨-, hscore, hub⟩ := goNav_some_char _ _ site none 0 rfl m0 hi hgo
        rcases goNav_first_char _ _ site none 0 rfl m0 hi hgo with heq |
          ⟨pre, it, post, hsplit, hu, hin, hsc, -, hpre⟩
        · exact Option.noConfusion heq
        · exact ⟨hscore ▸ hth, hub, pre, it, post, hsplit, hu, hin, hsc, hpre⟩
      · rw [if_neg hth] at hm
        exact Option.noConfusion hm
  · rcases hgo : goNav (trimStr (toLowerStr query))
        (navQueryWords (trimStr (toLowerStr query))) site none 0 with ⟨b, hi⟩
    cases b with
    | none =>
      have hred : keywordMatch site query = none := by
        rw [keywordMatch, hgo]
      rw [hred]
      constructor
      · intro _ g hg
        have hz := (goNav_none_iff _ _ site).mp (by rw [hgo]) g hg
        rw [navScoring]
        omega
      · intro _
        rfl
    | some m0 =>
      have hred : keywordMatch site query =
          if 10 ≤ hi then some m0 else none := by
        rw [keywordMatch, hgo]
      rw [hred]
      obtain ⟨-, hscore, hub⟩ := goNav_some_char _ _ site none 0 rfl m0 hi hgo
      by_cases hth : 10 ≤ hi
      · rw [if_pos hth]
        constructor
        · intro h
          exact Option.noConfusion h
        · intro h
          rcases goNav_first_char _ _ site none 0 rfl m0 hi hgo with heq |
            ⟨pre, it, post, hsplit, -, -, hsc, -, -⟩
          · exact Option.noConfusion heq
          · have hmem : it ∈ site := by
              rw [hsplit]
              exact List.mem_append_right _ (List.mem_cons_self _ _)
            have hit := h it hmem
            rw [navScoring] at hit
            omega
      · rw [if_neg hth]
        constructor
        · intro _ g hg
          have hg' := hub g hg
          rw [navScoring]
          omega
        · intro _
          rfl

theorem matcher_selects_first_max_witness :
    10 ≤ (100 : Nat) ∧
    faqScoring (("narx qancha").data) faqNarxQancha.keywords = 100 :=
  ⟨((matcher_selects_first_max (("narx qancha").data)
      [faqNarx, faqNarxQancha] []).1 ⟨faqNarxQancha, 100, [("narx qancha").data]⟩
      (by decide)).1,
   ((matcher_selects_first_max (("narx qancha").data)
      [faqNarx, faqNarxQancha] []).1 ⟨faqNarxQancha, 100, [("narx qancha").data]⟩
      (by decide)).2.1⟩
